import Mathlib

/-!
Verification of the relay pairing and encrypted command channel
(`src/src-tauri/src/relay.rs`).

The Rust source is shallowly embedded: bytes are `Nat` values below 256,
byte strings are `List Nat`, fallible operations return `Option` or
`Except String`, and the randomness consumed by the source (nonces,
secrets, pairing-code characters, timestamps) is passed in explicitly as
arguments.  External crates used by the source (`base64`, `sha2`,
`aes_gcm`) are embedded by their standard algorithms (RFC 4648 base64,
FIPS 180-4 SHA-256, FIPS 197 AES-256 with NIST SP 800-38D GCM).
-/

/-! ## Base64 (standard alphabet, with padding) — model of `BASE64_STANDARD` -/

def b64Alphabet : List Char :=
  ("ABCDEFGHIJKLMNOPQRSTUVWXYZabcdefghijklmnopqrstuvwxyz0123456789+/").toList

def b64Char (n : Nat) : Char := b64Alphabet.getD n '?'

def b64Index (c : Char) : Option Nat := b64Alphabet.findIdx? (fun x => x = c)

def b64Encode : List Nat → List Char
  | a :: b :: c :: rest =>
    let n := a * 65536 + b * 256 + c
    b64Char (n / 262144) :: b64Char (n / 4096 % 64) :: b64Char (n / 64 % 64) ::
      b64Char (n % 64) :: b64Encode rest
  | [a, b] =>
    let m := a * 1024 + b * 4
    [b64Char (m / 4096), b64Char (m / 64 % 64), b64Char (m % 64), '=']
  | [a] =>
    let m := a * 16
    [b64Char (m / 64), b64Char (m % 64), '=', '=']
  | [] => []

def b64Decode : List Char → Option (List Nat)
  | [] => some []
  | c0 :: c1 :: c2 :: c3 :: rest =>
    match b64Index c0, b64Index c1 with
    | some d0, some d1 =>
      if c2 = '=' then
        if c3 = '=' ∧ rest = [] then some [(d0 * 64 + d1) / 16] else none
      else
        match b64Index c2 with
        | some d2 =>
          if c3 = '=' then
            if rest = [] then
              let m := d0 * 4096 + d1 * 64 + d2
              some [m / 1024, m / 4 % 256]
            else none
          else
            match b64Index c3 with
            | some d3 =>
              let n := d0 * 262144 + d1 * 4096 + d2 * 64 + d3
              (b64Decode rest).map (fun tl => n / 65536 :: n / 256 % 256 :: n % 256 :: tl)
            | none => none
        | none => none
    | _, _ => none
  | _ => none

/-! ## SHA-256 (FIPS 180-4) — model of the `sha2` crate -/

def w32 (x : Nat) : Nat := x % 4294967296

def rotr32 (n x : Nat) : Nat := w32 ((x >>> n) ||| (x <<< (32 - n)))

def shaK : List Nat := [
  1116352408, 1899447441, 3049323471, 3921009573, 961987163, 1508970993,
  2453635748, 2870763221, 3624381080, 310598401, 607225278, 1426881987,
  1925078388, 2162078206, 2614888103, 3248222580, 3835390401, 4022224774,
  264347078, 604807628, 770255983, 1249150122, 1555081692, 1996064986,
  2554220882, 2821834349, 2952996808, 3210313671, 3336571891, 3584528711,
  113926993, 338241895, 666307205, 773529912, 1294757372, 1396182291,
  1695183700, 1986661051, 2177026350, 2456956037, 2730485921, 2820302411,
  3259730800, 3345764771, 3516065817, 3600352804, 4094571909, 275423344,
  430227734, 506948616, 659060556, 883997877, 958139571, 1322822218,
  1537002063, 1747873779, 1955562222, 2024104815, 2227730452, 2361852424,
  2428436474, 2756734187, 3204031479, 3329325298]

def shaH0 : List Nat := [
  1779033703, 3144134277, 1013904242, 2773480762,
  1359893119, 2600822924, 528734635, 1541459225]

def bigSigma0 (x : Nat) : Nat := rotr32 2 x ^^^ rotr32 13 x ^^^ rotr32 22 x

def bigSigma1 (x : Nat) : Nat := rotr32 6 x ^^^ rotr32 11 x ^^^ rotr32 25 x

def smallSigma0 (x : Nat) : Nat := rotr32 7 x ^^^ rotr32 18 x ^^^ (x >>> 3)

def smallSigma1 (x : Nat) : Nat := rotr32 17 x ^^^ rotr32 19 x ^^^ (x >>> 10)

def chF (x y z : Nat) : Nat := (x &&& y) ^^^ ((x ^^^ 4294967295) &&& z)

def majF (x y z : Nat) : Nat := (x &&& y) ^^^ (x &&& z) ^^^ (y &&& z)

def bytesToWords32 : List Nat → List Nat
  | b0 :: b1 :: b2 :: b3 :: rest =>
    (b0 * 16777216 + b1 * 65536 + b2 * 256 + b3) :: bytesToWords32 rest
  | _ => []

def word32Bytes (x : Nat) : List Nat :=
  [x / 16777216 % 256, x / 65536 % 256, x / 256 % 256, x % 256]

def shaExtendStep (w : List Nat) : List Nat :=
  let i := w.length
  w ++ [w32 (smallSigma1 (w.getD (i - 2) 0) + w.getD (i - 7) 0 +
             smallSigma0 (w.getD (i - 15) 0) + w.getD (i - 16) 0)]

def shaSchedule (w16 : List Nat) : List Nat :=
  (List.range 48).foldl (fun acc _ => shaExtendStep acc) w16

def shaCompressRound (s : List Nat) (k : Nat) (w : Nat) : List Nat :=
  match s with
  | [a, b, c, d, e, f, g, h] =>
    let t1 := w32 (h + bigSigma1 e + chF e f g + k + w)
    let t2 := w32 (bigSigma0 a + majF a b c)
    [w32 (t1 + t2), a, b, c, w32 (d + t1), e, f, g]
  | _ => s

def shaCompressBlock (h : List Nat) (block : List Nat) : List Nat :=
  let ws := shaSchedule (bytesToWords32 block)
  let s := (List.zip shaK ws).foldl (fun s kw => shaCompressRound s kw.1 kw.2) h
  List.zipWith (fun x y => w32 (x + y)) h s

def len64Bytes (n : Nat) : List Nat :=
  [n / 72057594037927936 % 256, n / 281474976710656 % 256, n / 1099511627776 % 256,
   n / 4294967296 % 256, n / 16777216 % 256, n / 65536 % 256, n / 256 % 256, n % 256]

def shaPad (msg : List Nat) : List Nat :=
  msg ++ 128 :: List.replicate ((64 - (msg.length + 9) % 64) % 64) 0 ++
    len64Bytes (8 * msg.length)

def chunks64 (l : List Nat) : List (List Nat) :=
  if h : l = [] then []
  else l.take 64 :: chunks64 (l.drop 64)
termination_by l.length
decreasing_by
  simp only [List.length_drop]
  have := List.length_pos.mpr h
  omega

def sha256 (msg : List Nat) : List Nat :=
  let hs := (chunks64 (shaPad msg)).foldl shaCompressBlock shaH0
  hs.foldr (fun x acc => word32Bytes x ++ acc) []

/-! ## Pairing-code keystream obfuscation — `encrypt_with_pairing_code` in relay.rs -/

/-- Byte sequence of a string.  The source operates on UTF-8 bytes
(`code.as_bytes()`); for the ASCII strings handled by the relay protocol the
code points used here coincide with the UTF-8 bytes. -/
def strBytes (s : String) : List Nat := s.toList.map Char.toNat

/-- The 32-byte XOR keystream: SHA256("comine-pairing-v1\0" ++ code). -/
def pairingKeystream (code : String) : List Nat :=
  sha256 (strBytes "comine-pairing-v1\x00" ++ strBytes code)

/-- `encrypt_with_pairing_code(code, secret)`: XOR the secret with the
SHA-256-derived keystream (cycling every 32 bytes), then base64-encode. -/
def encrypt_with_pairing_code (code : String) (secret : List Nat) : String :=
  let key := pairingKeystream code
  let encrypted := secret.enum.map (fun p => p.2 ^^^ key.getD (p.1 % 32) 0)
  String.mk (b64Encode encrypted)

/-- The inverse operation, as described by the specification: base64-decode the
obfuscated output, then XOR it with the SHA-256-derived keystream of the same
code.  (The decrypting side lives in the companion browser extension, outside
this repository.) -/
def decrypt_with_pairing_code (code : String) (out : String) : Option (List Nat) :=
  (b64Decode out.toList).map
    (fun bs => bs.enum.map (fun p => p.2 ^^^ (pairingKeystream code).getD (p.1 % 32) 0))

/-! ## AES-256 (FIPS 197) — model of the `aes_gcm` crate's block cipher -/

def aesSbox : List Nat := [
  0x63, 0x7c, 0x77, 0x7b, 0xf2, 0x6b, 0x6f, 0xc5, 0x30, 0x01, 0x67, 0x2b, 0xfe, 0xd7, 0xab, 0x76,
  0xca, 0x82, 0xc9, 0x7d, 0xfa, 0x59, 0x47, 0xf0, 0xad, 0xd4, 0xa2, 0xaf, 0x9c, 0xa4, 0x72, 0xc0,
  0xb7, 0xfd, 0x93, 0x26, 0x36, 0x3f, 0xf7, 0xcc, 0x34, 0xa5, 0xe5, 0xf1, 0x71, 0xd8, 0x31, 0x15,
  0x04, 0xc7, 0x23, 0xc3, 0x18, 0x96, 0x05, 0x9a, 0x07, 0x12, 0x80, 0xe2, 0xeb, 0x27, 0xb2, 0x75,
  0x09, 0x83, 0x2c, 0x1a, 0x1b, 0x6e, 0x5a, 0xa0, 0x52, 0x3b, 0xd6, 0xb3, 0x29, 0xe3, 0x2f, 0x84,
  0x53, 0xd1, 0x00, 0xed, 0x20, 0xfc, 0xb1, 0x5b, 0x6a, 0xcb, 0xbe, 0x39, 0x4a, 0x4c, 0x58, 0xcf,
  0xd0, 0xef, 0xaa, 0xfb, 0x43, 0x4d, 0x33, 0x85, 0x45, 0xf9, 0x02, 0x7f, 0x50, 0x3c, 0x9f, 0xa8,
  0x51, 0xa3, 0x40, 0x8f, 0x92, 0x9d, 0x38, 0xf5, 0xbc, 0xb6, 0xda, 0x21, 0x10, 0xff, 0xf3, 0xd2,
  0xcd, 0x0c, 0x13, 0xec, 0x5f, 0x97, 0x44, 0x17, 0xc4, 0xa7, 0x7e, 0x3d, 0x64, 0x5d, 0x19, 0x73,
  0x60, 0x81, 0x4f, 0xdc, 0x22, 0x2a, 0x90, 0x88, 0x46, 0xee, 0xb8, 0x14, 0xde, 0x5e, 0x0b, 0xdb,
  0xe0, 0x32, 0x3a, 0x0a, 0x49, 0x06, 0x24, 0x5c, 0xc2, 0xd3, 0xac, 0x62, 0x91, 0x95, 0xe4, 0x79,
  0xe7, 0xc8, 0x37, 0x6d, 0x8d, 0xd5, 0x4e, 0xa9, 0x6c, 0x56, 0xf4, 0xea, 0x65, 0x7a, 0xae, 0x08,
  0xba, 0x78, 0x25, 0x2e, 0x1c, 0xa6, 0xb4, 0xc6, 0xe8, 0xdd, 0x74, 0x1f, 0x4b, 0xbd, 0x8b, 0x8a,
  0x70, 0x3e, 0xb5, 0x66, 0x48, 0x03, 0xf6, 0x0e, 0x61, 0x35, 0x57, 0xb9, 0x86, 0xc1, 0x1d, 0x9e,
  0xe1, 0xf8, 0x98, 0x11, 0x69, 0xd9, 0x8e, 0x94, 0x9b, 0x1e, 0x87, 0xe9, 0xce, 0x55, 0x28, 0xdf,
  0x8c, 0xa1, 0x89, 0x0d, 0xbf, 0xe6, 0x42, 0x68, 0x41, 0x99, 0x2d, 0x0f, 0xb0, 0x54, 0xbb, 0x16]

def subByte (b : Nat) : Nat := aesSbox.getD b 0

def aesRcon : List Nat := [0x01, 0x02, 0x04, 0x08, 0x10, 0x20, 0x40]

def rotWord : List Nat → List Nat
  | [a, b, c, d] => [b, c, d, a]
  | w => w

def subWord (w : List Nat) : List Nat := w.map subByte

def xorWord (v w : List Nat) : List Nat := List.zipWith Nat.xor v w

/-- AES-256 key expansion: 8 initial words grown to 60 words of 4 bytes. -/
def aesExpandStep (ws : List (List Nat)) : List (List Nat) :=
  let i := ws.length
  let prev := ws.getD (i - 1) []
  let t :=
    if i % 8 = 0 then
      xorWord (subWord (rotWord prev)) [aesRcon.getD (i / 8 - 1) 0, 0, 0, 0]
    else if i % 8 = 4 then
      subWord prev
    else prev
  ws ++ [xorWord (ws.getD (i - 8) []) t]

def aesKeyWords (key : List Nat) : List (List Nat) :=
  let w0 := bytesToWords32 key |>.map word32Bytes
  (List.range 52).foldl (fun acc _ => aesExpandStep acc) w0

def aesRoundKey (ws : List (List Nat)) (r : Nat) : List Nat :=
  (ws.getD (4 * r) []) ++ (ws.getD (4 * r + 1) []) ++ (ws.getD (4 * r + 2) []) ++
    (ws.getD (4 * r + 3) [])

def addRoundKey (s rk : List Nat) : List Nat := List.zipWith Nat.xor s rk

def subBytes (s : List Nat) : List Nat := s.map subByte

/-- ShiftRows on the flat 16-byte state (byte `r + 4c` is row `r`, column `c`). -/
def shiftRows (s : List Nat) : List Nat :=
  (List.range 16).map (fun i => s.getD (i % 4 + 4 * ((i / 4 + i % 4) % 4)) 0)

def xtime (b : Nat) : Nat := if b < 128 then b * 2 else (b * 2) ^^^ 0x11b

def mixColumn : List Nat → List Nat
  | [a0, a1, a2, a3] =>
    [xtime a0 ^^^ (xtime a1 ^^^ a1) ^^^ a2 ^^^ a3,
     a0 ^^^ xtime a1 ^^^ (xtime a2 ^^^ a2) ^^^ a3,
     a0 ^^^ a1 ^^^ xtime a2 ^^^ (xtime a3 ^^^ a3),
     (xtime a0 ^^^ a0) ^^^ a1 ^^^ a2 ^^^ xtime a3]
  | c => c

def mixColumns (s : List Nat) : List Nat :=
  mixColumn (s.take 4) ++ mixColumn ((s.drop 4).take 4) ++
    mixColumn ((s.drop 8).take 4) ++ mixColumn (s.drop 12)

def aes256Block (key : List Nat) (block : List Nat) : List Nat :=
  let ws := aesKeyWords key
  let s0 := addRoundKey block (aesRoundKey ws 0)
  let s := (List.range 13).foldl
    (fun s r => addRoundKey (mixColumns (shiftRows (subBytes s))) (aesRoundKey ws (r + 1))) s0
  addRoundKey (shiftRows (subBytes s)) (aesRoundKey ws 14)

/-! ## GCM (NIST SP 800-38D) and the frame API of relay.rs -/

def bytesToNat128 (bs : List Nat) : Nat := bs.foldl (fun acc b => acc * 256 + b) 0

def natToBytes16 (n : Nat) : List Nat :=
  (List.range 16).map (fun i => n / 256 ^ (15 - i) % 256)

/-- Multiplication in GF(2^128) with the GCM reduction polynomial. -/
def gf128Mul (x y : Nat) : Nat :=
  let r := (List.range 128).foldl
    (fun p i =>
      let z := if Nat.testBit y (127 - i) then p.2 ^^^ p.1 else p.2
      let v := p.1
      let v2 := if v % 2 = 1 then (v / 2) ^^^ 0xe1000000000000000000000000000000 else v / 2
      (v2, z))
    (x, 0)
  r.2

def chunks16 (l : List Nat) : List (List Nat) :=
  if h : l = [] then []
  else l.take 16 :: chunks16 (l.drop 16)
termination_by l.length
decreasing_by
  simp only [List.length_drop]
  have := List.length_pos.mpr h
  omega

def ghash (hk : Nat) (data : List Nat) : Nat :=
  (chunks16 data).foldl (fun y blk => gf128Mul (y ^^^ bytesToNat128 blk) hk) 0

/-- Pad a byte string with zeros to a multiple of 16 bytes. -/
def zeroPad16 (l : List Nat) : List Nat :=
  l ++ List.replicate ((16 - l.length % 16) % 16) 0

def gcmCounterBlock (nonce : List Nat) (i : Nat) : List Nat :=
  nonce ++ [i / 16777216 % 256, i / 65536 % 256, i / 256 % 256, i % 256]

/-- CTR keystream: AES blocks at counters 2, 3, … truncated to `len` bytes
(counter 1 is reserved for the tag mask). -/
def gcmKeystream (key nonce : List Nat) (len : Nat) : List Nat :=
  (((List.range ((len + 15) / 16)).foldr
    (fun i acc => aes256Block key (gcmCounterBlock nonce (i + 2)) ++ acc) [])).take len

def gcmCipher (key nonce : List Nat) (data : List Nat) : List Nat :=
  List.zipWith Nat.xor data (gcmKeystream key nonce data.length)

/-- The 16-byte GCM authentication tag over the ciphertext (no associated data). -/
def gcmTag (key nonce ct : List Nat) : List Nat :=
  let hk := bytesToNat128 (aes256Block key (List.replicate 16 0))
  let lenBlock := List.replicate 8 0 ++ len64Bytes (8 * ct.length)
  let g := ghash hk (zeroPad16 ct ++ lenBlock)
  natToBytes16 (g ^^^ bytesToNat128 (aes256Block key (gcmCounterBlock nonce 1)))

/-- `Aes256Gcm::encrypt`: ciphertext with the 16-byte tag appended. -/
def gcmEncrypt (key nonce pt : List Nat) : List Nat :=
  let ct := gcmCipher key nonce pt
  ct ++ gcmTag key nonce ct

/-- `Aes256Gcm::decrypt`: split the trailing 16-byte tag, verify it, then
decrypt; `none` models the authentication error. -/
def gcmDecrypt (key nonce data : List Nat) : Option (List Nat) :=
  if data.length < 16 then none
  else if data.drop (data.length - 16) = gcmTag key nonce (data.take (data.length - 16)) then
    some (gcmCipher key nonce (data.take (data.length - 16)))
  else none

/-- `encrypt_frame(key, plaintext)` from relay.rs.  The source draws a random
12-byte nonce from `thread_rng`; the nonce is passed explicitly here.  Returns
the base64 nonce and the base64 ciphertext(+tag). -/
def encrypt_frame (key nonce plaintext : List Nat) : Except String (String × String) :=
  if key.length = 32 then
    Except.ok (String.mk (b64Encode nonce), String.mk (b64Encode (gcmEncrypt key nonce plaintext)))
  else Except.error "Invalid key length"

/-- `decrypt_frame(key, nonce_b64, box_b64)` from relay.rs. -/
def decrypt_frame (key : List Nat) (nonce_b64 box_b64 : String) : Except String (List Nat) :=
  if key.length = 32 then
    match b64Decode nonce_b64.toList with
    | none => Except.error "Invalid nonce"
    | some nonce_bytes =>
      match b64Decode box_b64.toList with
      | none => Except.error "Invalid ciphertext"
      | some ciphertext =>
        if nonce_bytes.length = 12 then
          match gcmDecrypt key nonce_bytes ciphertext with
          | some plaintext => Except.ok plaintext
          | none => Except.error "Decrypt failed"
        else Except.error "Invalid nonce length"
  else Except.error "Invalid key length"

-- ct cea7403d... tag d0d1c8a7...; "hello" -> a6c22c5122 / 8b908f7f62ffcea6a92fabef39bf4d93

def ByteWord (w : List Nat) : Prop := w.length = 4 ∧ ∀ x ∈ w, x < 256

/-- Encrypt a frame, then feed the two base64 strings straight back into
`decrypt_frame` with the same key. -/
def frame_roundTrip (key nonce pt : List Nat) : Except String (List Nat) := do
  let p ← encrypt_frame key nonce pt
  decrypt_frame key p.1 p.2

/-! ## Data model of relay.rs -/

structure RelayConfig where
  enabled : Bool
  server_url : String
  host_id : String
  master_secret : String
deriving Repr, DecidableEq

structure PairedDevice where
  device_id : String
  device_name : String
  browser : String
  secret : String
  paired_at : Int
  last_seen : Int
  last_command_at : Int
  command_count : Nat
deriving Repr, DecidableEq

structure PendingPairing where
  device_id : String
  device_name : String
  browser : String
  code : String
deriving Repr, DecidableEq

/-- The wire envelope.  The `box` field of the JSON is `box_data` here, as in
the Rust struct. -/
structure RelayMessage where
  t : String
  host_id : Option String := none
  device_id : Option String := none
  code : Option String := none
  device_name : Option String := none
  browser : Option String := none
  encrypted_secret : Option String := none
  nonce : Option String := none
  box_data : Option String := none
  error : Option String := none
deriving Repr, DecidableEq

structure InnerMessage where
  msg_type : String
  cmd_id : Option String := none
  url : Option String := none
  title : Option String := none
  thumbnail : Option String := none
  open_app : Option Bool := none
  success : Option Bool := none
  error : Option String := none
deriving Repr, DecidableEq

/-- serde_json output for `InnerMessage` (fields in declaration order,
`None` fields skipped, `open_app` renamed to `openApp`). -/
def jsonEscapeChar (c : Char) : List Char :=
  if c = '"' then ['\\', '"']
  else if c = '\\' then ['\\', '\\']
  else [c]

def jsonStr (s : String) : String :=
  "\"" ++ String.mk (s.toList.foldr (fun c acc => jsonEscapeChar c ++ acc) []) ++ "\""

def optField (name : String) (v : Option String) : String :=
  match v with
  | none => ""
  | some s => "," ++ jsonStr name ++ ":" ++ jsonStr s

def optFieldBool (name : String) (v : Option Bool) : String :=
  match v with
  | none => ""
  | some b => "," ++ jsonStr name ++ ":" ++ (if b then "true" else "false")

def innerToJson (m : InnerMessage) : String :=
  "\x7b" ++ jsonStr "type" ++ ":" ++ jsonStr m.msg_type ++
  optField "cmd_id" m.cmd_id ++ optField "url" m.url ++ optField "title" m.title ++
  optField "thumbnail" m.thumbnail ++ optFieldBool "openApp" m.open_app ++
  optFieldBool "success" m.success ++ optField "error" m.error ++ "\x7d"

/-- Events emitted through `app.emit`. -/
inductive AppEvent where
  | extensionDownload (url : String) (title thumbnail : Option String) (id : String)
      (openApp : Bool) (deviceId : String) (fromRelay : Bool)
  | extensionCancel (url : String) (id : String) (deviceId : String) (fromRelay : Bool)
  | relayPairingRequest (p : PendingPairing)
  | relayStatus (enabled : Bool) (server_url : String) (connected : Bool) (host_id : String)
      (device_count : Nat) (pairing_code : Option String)
deriving Repr, DecidableEq

/-! Association-list model of `HashMap<String, α>` (keys kept unique by
construction: insert replaces in place, otherwise appends). -/

def alGet {α : Type} (m : List (String × α)) (k : String) : Option α :=
  match m.find? (fun p => p.1 = k) with
  | some p => some p.2
  | none => none

def alInsert {α : Type} (m : List (String × α)) (k : String) (v : α) : List (String × α) :=
  if (m.find? (fun p => p.1 = k)).isSome then
    m.map (fun p => if p.1 = k then (k, v) else p)
  else m ++ [(k, v)]

def alRemove {α : Type} (m : List (String × α)) (k : String) : List (String × α) :=
  m.filter (fun p => p.1 ≠ k)

/-- `get_mut`: apply `f` to the value at `k` when present, otherwise no change. -/
def alUpdate {α : Type} (m : List (String × α)) (k : String) (f : α → α) :
    List (String × α) :=
  m.map (fun p => if p.1 = k then (p.1, f p.2) else p)

/-- In-memory relay state (the lock-guarded fields of `RelayState`).
`sender` is `true` when an outbound channel handle is installed
(`Some(tx)` in the source); persistence is not modelled (the async file
writes either succeed or have their errors ignored by the callers under
study). -/
structure MRelayState where
  config : RelayConfig
  devices : List (String × PairedDevice)
  pending_pairings : List (String × PendingPairing)
  current_pairing_code : Option String
  sender : Bool
  connected : Bool
deriving Repr, DecidableEq

/-- Result of handling one inbound envelope: the new state, the locally
emitted events (in order), and the outbound envelopes pushed onto the
writer queue (in order). -/
structure HandleResult where
  state : MRelayState
  events : List AppEvent
  outbound : List RelayMessage
deriving Repr, DecidableEq

/-! ## Operations of relay.rs (dispatcher, pairing coordinator, config load) -/

/-- `send_ack` from relay.rs: serialize the ack `InnerMessage`, encrypt it as a
frame and enqueue the resulting envelope.  The random nonce drawn inside
`encrypt_frame` is the `ackNonce` argument.  An encryption failure enqueues
nothing (the source returns early). -/
def send_ack (device_id : String) (secret : List Nat) (cmd_id : String) (success : Bool)
    (error : Option String) (ackNonce : List Nat) : List RelayMessage :=
  let inner : InnerMessage :=
    { msg_type := "ack", cmd_id := some cmd_id, success := some success, error := error }
  let plaintext := strBytes (innerToJson inner)
  match encrypt_frame secret ackNonce plaintext with
  | Except.ok p =>
    [{ t := "frame", device_id := some device_id, nonce := some p.1, box_data := some p.2 }]
  | Except.error _ => []

/-- The metadata update at the top of `handle_inner_message`: always refresh
`last_seen`; for `download`/`cancel` also bump `command_count`
(`saturating_add` on u64) and `last_command_at`. -/
def metaUpdate (now : Int) (msg_type : String) (d : PairedDevice) : PairedDevice :=
  let d1 := { d with last_seen := now }
  if msg_type = "download" ∨ msg_type = "cancel" then
    { d1 with command_count := min (d1.command_count + 1) 18446744073709551615,
              last_command_at := now }
  else d1

/-- `handle_inner_message` from relay.rs.  `tsMillis` stands for
`chrono::Utc::now().timestamp_millis()` used to synthesize an id when
`cmd_id` is absent. -/
def handle_inner_message (now : Int) (tsMillis : Int) (ackNonce : List Nat)
    (st : MRelayState) (device_id : String) (device_secret : List Nat)
    (msg : InnerMessage) : HandleResult :=
  let st1 := { st with devices := alUpdate st.devices device_id (metaUpdate now msg.msg_type) }
  if msg.msg_type = "probe" then
    match msg.cmd_id with
    | some cmd_id => ⟨st1, [], send_ack device_id device_secret cmd_id true none ackNonce⟩
    | none => ⟨st1, [], []⟩
  else if msg.msg_type = "download" then
    let ev := AppEvent.extensionDownload (msg.url.getD "") msg.title msg.thumbnail
      (msg.cmd_id.getD ("relay-" ++ toString tsMillis)) (msg.open_app.getD false) device_id true
    match msg.cmd_id with
    | some cmd_id => ⟨st1, [ev], send_ack device_id device_secret cmd_id true none ackNonce⟩
    | none => ⟨st1, [ev], []⟩
  else if msg.msg_type = "cancel" then
    let ev := AppEvent.extensionCancel (msg.url.getD "")
      (msg.cmd_id.getD ("relay-" ++ toString tsMillis)) device_id true
    match msg.cmd_id with
    | some cmd_id => ⟨st1, [ev], send_ack device_id device_secret cmd_id true none ackNonce⟩
    | none => ⟨st1, [ev], []⟩
  else ⟨st1, [], []⟩

/-- `handle_message` from relay.rs.  `parseInner` stands for
`serde_json::from_slice::<InnerMessage>` (the external JSON parser);
the remaining randomness/time sources are explicit arguments. -/
def handle_message (parseInner : List Nat → Option InnerMessage) (now tsMillis : Int)
    (ackNonce : List Nat) (st : MRelayState) (msg : RelayMessage) : HandleResult :=
  if msg.t = "host_ok" then
    let st1 := { st with connected := true }
    ⟨st1, [AppEvent.relayStatus st1.config.enabled st1.config.server_url true
      st1.config.host_id st1.devices.length st1.current_pairing_code], []⟩
  else if msg.t = "pairing_request" then
    let device_id := msg.device_id.getD ""
    let code := msg.code.getD ""
    let device_name := msg.device_name.getD "Unknown"
    let browser := msg.browser.getD "Browser"
    if st.current_pairing_code ≠ some code then
      ⟨st, [], [{ t := "pairing_reject", device_id := some device_id }]⟩
    else
      let pending : PendingPairing := ⟨device_id, device_name, browser, code⟩
      ⟨{ st with pending_pairings := alInsert st.pending_pairings device_id pending },
        [AppEvent.relayPairingRequest pending], []⟩
  else if msg.t = "frame" then
    let device_id := msg.device_id.getD ""
    let nonce := msg.nonce.getD ""
    let box_data := msg.box_data.getD ""
    match alGet st.devices device_id with
    | none => ⟨st, [], []⟩
    | some device =>
      match b64Decode device.secret.toList with
      | some s =>
        if s.length = 32 then
          match decrypt_frame s nonce box_data with
          | Except.ok plaintext =>
            match parseInner plaintext with
            | some inner => handle_inner_message now tsMillis ackNonce st device_id s inner
            | none => ⟨st, [], []⟩
          | Except.error _ => ⟨st, [], []⟩
        else ⟨st, [], []⟩
      | none => ⟨st, [], []⟩
  else ⟨st, [], []⟩

/-- `generate_pairing_code` from relay.rs: six draws from the 32-character
charset.  `draws` are the values of `rng.gen_range(0..CHARSET.len())`. -/
def PAIRING_CHARSET : List Char := "ABCDEFGHJKLMNPQRSTUVWXYZ23456789".toList

def generate_pairing_code (draws : List Nat) : String :=
  String.mk ((List.range 6).map (fun i => PAIRING_CHARSET.getD (draws.getD i 0) '?'))

/-- `start_pairing`: generate a code, store it as the current code, return it. -/
def start_pairing (st : MRelayState) (draws : List Nat) : MRelayState × String :=
  let code := generate_pairing_code draws
  ({ st with current_pairing_code := some code }, code)

/-- `stop_pairing`: clear the current code and all pending pairings. -/
def stop_pairing (st : MRelayState) : MRelayState :=
  { st with current_pairing_code := none, pending_pairings := [] }

/-- `accept_pairing` from relay.rs.  `freshSecret` is the 32-byte output of
`generate_device_secret()`; `now` is the acceptance timestamp.  The
`pairing_accept` envelope is sent only if a sender handle is installed. -/
def accept_pairing (st : MRelayState) (device_id : String) (freshSecret : List Nat)
    (now : Int) : Except String (MRelayState × List RelayMessage) :=
  match alGet st.pending_pairings device_id with
  | none => Except.error "No pending pairing"
  | some pending =>
    let st1 := { st with pending_pairings := alRemove st.pending_pairings device_id }
    let encrypted := encrypt_with_pairing_code pending.code freshSecret
    let device : PairedDevice := {
      device_id := device_id, device_name := pending.device_name,
      browser := pending.browser, secret := String.mk (b64Encode freshSecret),
      paired_at := now, last_seen := now, last_command_at := 0, command_count := 0 }
    let st2 := { st1 with devices := alInsert st1.devices device_id device }
    let out := if st2.sender then
        [{ t := "pairing_accept", device_id := some device_id,
           encrypted_secret := some encrypted }]
      else []
    Except.ok ({ st2 with current_pairing_code := none }, out)

/-- `reject_pairing` from relay.rs. -/
def reject_pairing (st : MRelayState) (device_id : String) :
    MRelayState × List RelayMessage :=
  let st1 := { st with pending_pairings := alRemove st.pending_pairings device_id }
  let out := if st1.sender then
      [{ t := "pairing_reject", device_id := some device_id }]
    else []
  (st1, out)

/-! ## `RelayState::load` self-healing (config part) -/

/-- Executable model of Rust `str::trim`: drop Unicode whitespace from both
ends. -/
def strTrim (s : String) : String :=
  String.mk (((s.toList.dropWhile Char.isWhitespace).reverse.dropWhile
    Char.isWhitespace).reverse)

/-- Executable model of Rust `str::starts_with`. -/
def strStartsWith (s p : String) : Bool := List.isPrefixOf p.toList s.toList

def default_server_url : String := "wss://sync.comine.app/ws"

def hexDigit (n : Nat) : Char := ("0123456789abcdef").toList.getD n '?'

/-- `hex::encode` of the random bytes drawn in `generate_host_id`. -/
def generate_host_id (randomBytes : List Nat) : String :=
  String.mk (randomBytes.foldr (fun b acc => hexDigit (b / 16) :: hexDigit (b % 16) :: acc) [])

/-- `BASE64_STANDARD.encode` of the random bytes drawn in
`generate_master_secret`. -/
def generate_master_secret (randomBytes : List Nat) : String :=
  String.mk (b64Encode randomBytes)

/-- `RelayConfig::default()` with its two random draws made explicit. -/
def RelayConfig.defaultWith (hostBytes secretBytes : List Nat) : RelayConfig :=
  { enabled := false, server_url := default_server_url,
    host_id := generate_host_id hostBytes, master_secret := generate_master_secret secretBytes }

def heal_server_url (u : String) : String × Bool :=
  if strTrim u = "" then (default_server_url, true)
  else if !(strStartsWith u "ws://" || strStartsWith u "wss://") then
    (default_server_url, true)
  else (u, false)

def heal_host_id (h : String) (hostBytes : List Nat) : String × Bool :=
  if strTrim h = "" then (generate_host_id hostBytes, true) else (h, false)

def heal_master_secret (s : String) (secretBytes : List Nat) : String × Bool :=
  if strTrim s = "" then (generate_master_secret secretBytes, true) else (s, false)

/-- The config part of `RelayState::load` on the Ok path.  `current` is the
in-memory config from `RelayState::new` (a fresh `RelayConfig::default()`);
`file` is the parsed `relay_config.json` when the file exists (a parse error
makes `load` return Err and is outside this function).  Returns the resulting
in-memory config and whether `save_config` was invoked (`config_dirty`). -/
def load_relay_config (current : RelayConfig) (file : Option RelayConfig)
    (hostBytes secretBytes : List Nat) : RelayConfig × Bool :=
  match file with
  | none => (current, true)
  | some c0 =>
    let su := heal_server_url c0.server_url
    let hi := heal_host_id c0.host_id hostBytes
    let ms := heal_master_secret c0.master_secret secretBytes
    ({ c0 with server_url := su.1, host_id := hi.1, master_secret := ms.1 },
     su.2 || hi.2 || ms.2)

/-! ## The connect-loop single-flight guard -/

/-- State of the single-flight mechanism: the `connect_task_running` atomic
flag and the number of connect/reconnect loops currently alive. -/
structure ConnSys where
  running : Bool
  active : Nat
deriving Repr, DecidableEq

/-- One invocation of `connect`: `swap(true, SeqCst)` sets the flag and
returns its previous value; if it was already set the call returns
immediately (state unchanged), otherwise a new loop starts. -/
def connect_invoke (s : ConnSys) : ConnSys :=
  if s.running then s else { running := true, active := s.active + 1 }

def connInit : ConnSys := { running := false, active := 0 }

/-- Interleaved execution: any number of `connect` invocations, and loop
terminations (the `ResetFlag` drop guard clears the flag when a loop
returns). -/
inductive ConnStep : ConnSys → ConnSys → Prop where
  | invoke (s : ConnSys) : ConnStep s (connect_invoke s)
  | loop_exit (s : ConnSys) (h : 1 ≤ s.active) :
      ConnStep s { running := false, active := s.active - 1 }

inductive ConnReach : ConnSys → Prop where
  | init : ConnReach connInit
  | step {s t : ConnSys} : ConnReach s → ConnStep s t → ConnReach t

/-- Small concrete fixtures used to instantiate the theorems below on
closed inputs. -/
def fixtureConfig : RelayConfig :=
  { enabled := false, server_url := "wss://x", host_id := "h", master_secret := "m" }

def fixtureBadConfig : RelayConfig :=
  { enabled := true, server_url := "http://bad", host_id := " ", master_secret := "" }

def fixtureState : MRelayState :=
  { config := fixtureConfig, devices := [], pending_pairings := [],
    current_pairing_code := none, sender := true, connected := false }

theorem b64Index_b64Char : ∀ d : Fin 64, b64Index (b64Char d.val) = some d.val := by
  decide

theorem b64Char_ne_pad : ∀ d : Fin 64, b64Char d.val ≠ '=' := by
  decide

theorem b64_roundtrip : ∀ (l : List Nat), (∀ b ∈ l, b < 256) →
    b64Decode (b64Encode l) = some l
  | [], _ => rfl
  | [a], h => by
    have ha : a < 256 := h a (by simp)
    have h0 : a * 16 / 64 < 64 := by omega
    have h1 : a * 16 % 64 < 64 := by omega
    simp only [b64Encode, b64Decode,
      b64Index_b64Char ⟨a * 16 / 64, h0⟩, b64Index_b64Char ⟨a * 16 % 64, h1⟩]
    simp only [if_pos rfl, and_self, if_pos]
    simp only [Option.some.injEq, List.cons.injEq, and_true]
    omega
  | [a, b], h => by
    have ha : a < 256 := h a (by simp)
    have hb : b < 256 := h b (by simp)
    have h0 : (a * 1024 + b * 4) / 4096 < 64 := by omega
    have h1 : (a * 1024 + b * 4) / 64 % 64 < 64 := by omega
    have h2 : (a * 1024 + b * 4) % 64 < 64 := by omega
    simp only [b64Encode, b64Decode,
      b64Index_b64Char ⟨_, h0⟩, b64Index_b64Char ⟨_, h1⟩, b64Index_b64Char ⟨_, h2⟩]
    rw [if_neg (b64Char_ne_pad ⟨_, h2⟩)]
    simp only [if_true, and_self, ite_true, Option.some.injEq, List.cons.injEq, and_true]
    omega
  | a :: b :: c :: rest, h => by
    have ha : a < 256 := h a (by simp)
    have hb : b < 256 := h b (by simp)
    have hc : c < 256 := h c (by simp)
    have ih := b64_roundtrip rest (fun x hx => h x (by simp [hx]))
    have h0 : (a * 65536 + b * 256 + c) / 262144 < 64 := by omega
    have h1 : (a * 65536 + b * 256 + c) / 4096 % 64 < 64 := by omega
    have h2 : (a * 65536 + b * 256 + c) / 64 % 64 < 64 := by omega
    have h3 : (a * 65536 + b * 256 + c) % 64 < 64 := by omega
    simp only [b64Encode, b64Decode,
      b64Index_b64Char ⟨_, h0⟩, b64Index_b64Char ⟨_, h1⟩,
      b64Index_b64Char ⟨_, h2⟩, b64Index_b64Char ⟨_, h3⟩]
    rw [if_neg (b64Char_ne_pad ⟨_, h2⟩), if_neg (b64Char_ne_pad ⟨_, h3⟩)]
    rw [ih]
    simp only [Option.map, Option.some.injEq, List.cons.injEq, and_true]
    refine ⟨by omega, by omega, by omega⟩

/-! ## Byte-boundedness and length lemmas for the crypto engine -/

theorem foldl_inv {α β : Type} {P : β → Prop} (f : β → α → β)
    (hf : ∀ acc a, P acc → P (f acc a)) :
    ∀ (l : List α) (acc : β), P acc → P (l.foldl f acc) := by
  intro l
  induction l with
  | nil => intro acc h; exact h
  | cons a t ih => intro acc h; exact ih (f acc a) (hf acc a h)

theorem getD_prop {α : Type} {p : α → Prop} {l : List α} {d : α}
    (hl : ∀ x ∈ l, p x) (hd : p d) : ∀ i, p (l.getD i d) := by
  induction l with
  | nil => intro i; simpa [List.getD]
  | cons a t ih =>
    intro i
    cases i with
    | zero => simpa [List.getD] using hl a (by simp)
    | succ j =>
      simp only [List.getD_cons_succ]
      exact ih (fun x hx => hl x (by simp [hx])) j

theorem xor_lt_two_pow {n a b : Nat} (ha : a < 2 ^ n) (hb : b < 2 ^ n) :
    a ^^^ b < 2 ^ n := by
  apply Nat.lt_pow_two_of_testBit
  intro i hi
  have hle : 2 ^ n ≤ 2 ^ i := Nat.pow_le_pow_right (by norm_num) hi
  have hta : a.testBit i = false := Nat.testBit_lt_two_pow (lt_of_lt_of_le ha hle)
  have htb : b.testBit i = false := Nat.testBit_lt_two_pow (lt_of_lt_of_le hb hle)
  simp [Nat.testBit_xor, hta, htb]

theorem xor_lt_256 {a b : Nat} (ha : a < 256) (hb : b < 256) : a ^^^ b < 256 := by
  have := @xor_lt_two_pow 8 a b (by omega) (by omega)
  omega

theorem zipWith_xor_lt {l1 l2 : List Nat} (h1 : ∀ x ∈ l1, x < 256)
    (h2 : ∀ x ∈ l2, x < 256) : ∀ x ∈ List.zipWith Nat.xor l1 l2, x < 256 := by
  induction l1 generalizing l2 with
  | nil => simp
  | cons a t ih =>
    cases l2 with
    | nil => simp
    | cons b u =>
      intro x hx
      simp only [List.zipWith_cons_cons, List.mem_cons] at hx
      rcases hx with rfl | hx
      · exact xor_lt_256 (h1 a (by simp)) (h2 b (by simp))
      · exact ih (fun y hy => h1 y (by simp [hy])) (fun y hy => h2 y (by simp [hy])) x hx

theorem getD_mem {α : Type} {l : List α} {d : α} : ∀ {i : Nat}, i < l.length →
    l.getD i d ∈ l := by
  induction l with
  | nil => intro i h; simp at h
  | cons a t ih =>
    intro i h
    cases i with
    | zero => simp [List.getD]
    | succ j =>
      simp only [List.getD_cons_succ]
      exact List.mem_cons_of_mem a (ih (by simpa using h))

set_option maxRecDepth 4096 in
theorem aesSbox_lt : ∀ x ∈ aesSbox, x < 256 := by decide

theorem subByte_lt (b : Nat) : subByte b < 256 :=
  @getD_prop Nat (fun x => x < 256) aesSbox 0 aesSbox_lt (by omega) b

theorem rotWord_byteWord {w : List Nat} (h : ByteWord w) : ByteWord (rotWord w) := by
  obtain ⟨hl, hb⟩ := h
  rcases w with _ | ⟨a, _ | ⟨b, _ | ⟨c, _ | ⟨d, _ | t⟩⟩⟩⟩ <;> simp_all [rotWord, ByteWord]

theorem subWord_byteWord {w : List Nat} (h : w.length = 4) : ByteWord (subWord w) := by
  refine ⟨by simp [subWord, h], ?_⟩
  intro x hx
  simp only [subWord, List.mem_map] at hx
  obtain ⟨y, _, rfl⟩ := hx
  exact subByte_lt y

theorem xorWord_byteWord {v w : List Nat} (hv : ByteWord v) (hw : ByteWord w) :
    ByteWord (xorWord v w) := by
  refine ⟨by simp [xorWord, hv.1, hw.1], ?_⟩
  exact zipWith_xor_lt hv.2 hw.2

theorem aesExpandStep_good {ws : List (List Nat)} (h1 : 1 ≤ ws.length)
    (h : ∀ w ∈ ws, ByteWord w) :
    (aesExpandStep ws).length = ws.length + 1 ∧ ∀ w ∈ aesExpandStep ws, ByteWord w := by
  have hprev : ByteWord (ws.getD (ws.length - 1) []) :=
    h _ (getD_mem (by omega))
  have hback : ByteWord (ws.getD (ws.length - 8) []) :=
    h _ (getD_mem (by omega))
  have hrcon : ByteWord [aesRcon.getD (ws.length / 8 - 1) 0, 0, 0, 0] := by
    refine ⟨by simp, ?_⟩
    intro x hx
    simp only [List.mem_cons, List.not_mem_nil, or_false] at hx
    rcases hx with rfl | rfl | rfl | rfl
    · exact @getD_prop Nat (fun x => x < 256) aesRcon 0 (by decide) (by omega) _
    all_goals omega
  have ht : ByteWord (if ws.length % 8 = 0 then
      xorWord (subWord (rotWord (ws.getD (ws.length - 1) [])))
        [aesRcon.getD (ws.length / 8 - 1) 0, 0, 0, 0]
    else if ws.length % 8 = 4 then subWord (ws.getD (ws.length - 1) [])
    else ws.getD (ws.length - 1) []) := by
    split
    · exact xorWord_byteWord (subWord_byteWord (rotWord_byteWord hprev).1) hrcon
    · split
      · exact subWord_byteWord hprev.1
      · exact hprev
  constructor
  · simp [aesExpandStep]
  · intro w hw
    simp only [aesExpandStep, List.mem_append, List.mem_singleton] at hw
    rcases hw with hw | rfl
    · exact h w hw
    · exact xorWord_byteWord hback ht

theorem range_foldl_words (n : Nat) :
    ∀ (ws : List (List Nat)), 1 ≤ ws.length → (∀ w ∈ ws, ByteWord w) →
      ((List.range n).foldl (fun acc _ => aesExpandStep acc) ws).length = ws.length + n ∧
      ∀ w ∈ (List.range n).foldl (fun acc _ => aesExpandStep acc) ws, ByteWord w := by
  induction n with
  | zero => intro ws h1 h; exact ⟨rfl, h⟩
  | succ m ih =>
    intro ws h1 h
    rw [List.range_succ, List.foldl_append]
    obtain ⟨ihl, ihw⟩ := ih ws h1 h
    have hs := @aesExpandStep_good ((List.range m).foldl (fun acc _ => aesExpandStep acc) ws)
      (by omega) ihw
    simp only [List.foldl_cons, List.foldl_nil]
    exact ⟨by omega, hs.2⟩

theorem bytesToWords32_length : ∀ l : List Nat, (bytesToWords32 l).length = l.length / 4
  | b0 :: b1 :: b2 :: b3 :: rest => by
    simp only [bytesToWords32, List.length_cons, bytesToWords32_length rest]
    omega
  | [] => by simp [bytesToWords32]
  | [_] => by simp [bytesToWords32]
  | [_, _] => by simp [bytesToWords32]
  | [_, _, _] => by simp [bytesToWords32]

theorem word32Bytes_byteWord (x : Nat) : ByteWord (word32Bytes x) := by
  refine ⟨rfl, ?_⟩
  intro y hy
  simp only [word32Bytes, List.mem_cons, List.not_mem_nil, or_false] at hy
  rcases hy with rfl | rfl | rfl | rfl <;> omega

theorem aesKeyWords_good {key : List Nat} (hk : key.length = 32) :
    (aesKeyWords key).length = 60 ∧ ∀ w ∈ aesKeyWords key, ByteWord w := by
  unfold aesKeyWords
  have hw0len : ((bytesToWords32 key).map word32Bytes).length = 8 := by
    simp [bytesToWords32_length, hk]
  have hw0 : ∀ w ∈ (bytesToWords32 key).map word32Bytes, ByteWord w := by
    intro w hw
    simp only [List.mem_map] at hw
    obtain ⟨x, _, rfl⟩ := hw
    exact word32Bytes_byteWord x
  have hmain := range_foldl_words 52 _ (by omega) hw0
  exact ⟨by rw [hmain.1, hw0len], hmain.2⟩

theorem aesRoundKey_good {ws : List (List Nat)} (h60 : ws.length = 60)
    (hgood : ∀ w ∈ ws, ByteWord w) {r : Nat} (hr : r ≤ 14) :
    (aesRoundKey ws r).length = 16 ∧ ∀ x ∈ aesRoundKey ws r, x < 256 := by
  have g0 := hgood _ (@getD_mem (List Nat) ws [] (4 * r) (by omega))
  have g1 := hgood _ (@getD_mem (List Nat) ws [] (4 * r + 1) (by omega))
  have g2 := hgood _ (@getD_mem (List Nat) ws [] (4 * r + 2) (by omega))
  have g3 := hgood _ (@getD_mem (List Nat) ws [] (4 * r + 3) (by omega))
  constructor
  · simp only [aesRoundKey, List.length_append, g0.1, g1.1, g2.1, g3.1]
  · intro x hx
    simp only [aesRoundKey, List.mem_append] at hx
    rcases hx with ((hx | hx) | hx) | hx
    · exact g0.2 x hx
    · exact g1.2 x hx
    · exact g2.2 x hx
    · exact g3.2 x hx

theorem subBytes_lt (s : List Nat) : ∀ x ∈ subBytes s, x < 256 := by
  intro x hx
  simp only [subBytes, List.mem_map] at hx
  obtain ⟨y, _, rfl⟩ := hx
  exact subByte_lt y

theorem shiftRows_length (s : List Nat) : (shiftRows s).length = 16 := by
  simp [shiftRows]

theorem shiftRows_lt {s : List Nat} (hs : ∀ x ∈ s, x < 256) :
    ∀ x ∈ shiftRows s, x < 256 := by
  intro x hx
  simp only [shiftRows, List.mem_map] at hx
  obtain ⟨i, _, rfl⟩ := hx
  exact getD_prop hs (by omega) _

theorem aes256Block_good {key : List Nat} (hk : key.length = 32) (block : List Nat) :
    (aes256Block key block).length = 16 ∧ ∀ x ∈ aes256Block key block, x < 256 := by
  obtain ⟨h60, hgood⟩ := aesKeyWords_good hk
  have hrk := aesRoundKey_good h60 hgood (le_refl 14)
  unfold aes256Block
  constructor
  · simp only [addRoundKey, List.length_zipWith, shiftRows_length, hrk.1, Nat.min_self]
  · exact zipWith_xor_lt (shiftRows_lt (subBytes_lt _)) hrk.2

theorem blocks_foldr_spec {key : List Nat} (hk : key.length = 32) (nonce : List Nat) :
    ∀ l : List Nat,
      ((l.foldr (fun i acc => aes256Block key (gcmCounterBlock nonce (i + 2)) ++ acc) []).length
        = 16 * l.length) ∧
      ∀ x ∈ l.foldr (fun i acc => aes256Block key (gcmCounterBlock nonce (i + 2)) ++ acc) [],
        x < 256 := by
  intro l
  induction l with
  | nil => simp
  | cons a t ih =>
    constructor
    · simp only [List.foldr_cons, List.length_append, (aes256Block_good hk _).1, ih.1,
        List.length_cons]
      ring
    · intro x hx
      simp only [List.foldr_cons, List.mem_append] at hx
      rcases hx with hx | hx
      · exact (aes256Block_good hk _).2 x hx
      · exact ih.2 x hx

theorem gcmKeystream_good {key : List Nat} (hk : key.length = 32) (nonce : List Nat)
    (len : Nat) :
    (gcmKeystream key nonce len).length = len ∧ ∀ x ∈ gcmKeystream key nonce len, x < 256 := by
  unfold gcmKeystream
  obtain ⟨hl, hb⟩ := blocks_foldr_spec hk nonce (List.range ((len + 15) / 16))
  constructor
  · rw [List.length_take, hl, List.length_range]
    omega
  · intro x hx
    exact hb x (List.mem_of_mem_take hx)

theorem gcmCipher_length {key : List Nat} (hk : key.length = 32) (nonce data : List Nat) :
    (gcmCipher key nonce data).length = data.length := by
  unfold gcmCipher
  rw [List.length_zipWith, (gcmKeystream_good hk nonce data.length).1, Nat.min_self]

theorem gcmCipher_lt {key : List Nat} (hk : key.length = 32) {nonce data : List Nat}
    (hd : ∀ x ∈ data, x < 256) : ∀ x ∈ gcmCipher key nonce data, x < 256 :=
  zipWith_xor_lt hd (gcmKeystream_good hk nonce data.length).2

theorem zipWith_xor_invol : ∀ (pt ks : List Nat), ks.length = pt.length →
    List.zipWith Nat.xor (List.zipWith Nat.xor pt ks) ks = pt := by
  intro pt
  induction pt with
  | nil => intro ks h; simp
  | cons a t ih =>
    intro ks h
    cases ks with
    | nil => simp at h
    | cons b u =>
      simp only [List.zipWith_cons_cons, List.cons.injEq]
      exact ⟨Nat.xor_cancel_right b a, ih u (by simpa using h)⟩

theorem gcmCipher_invol {key : List Nat} (hk : key.length = 32) (nonce pt : List Nat) :
    gcmCipher key nonce (gcmCipher key nonce pt) = pt := by
  conv_lhs => rw [gcmCipher]
  rw [gcmCipher_length hk]
  exact zipWith_xor_invol pt (gcmKeystream key nonce pt.length)
    (gcmKeystream_good hk nonce pt.length).1

theorem gcmTag_length (key nonce ct : List Nat) : (gcmTag key nonce ct).length = 16 := by
  simp [gcmTag, natToBytes16]

theorem gcmTag_lt (key nonce ct : List Nat) : ∀ x ∈ gcmTag key nonce ct, x < 256 := by
  intro x hx
  simp only [gcmTag, natToBytes16, List.mem_map, List.mem_range] at hx
  obtain ⟨i, _, rfl⟩ := hx
  omega

theorem gcmEncrypt_lt {key : List Nat} (hk : key.length = 32) {nonce pt : List Nat}
    (hp : ∀ x ∈ pt, x < 256) : ∀ x ∈ gcmEncrypt key nonce pt, x < 256 := by
  intro x hx
  simp only [gcmEncrypt, List.mem_append] at hx
  rcases hx with hx | hx
  · exact gcmCipher_lt hk hp x hx
  · exact gcmTag_lt key nonce _ x hx

theorem gcmDecrypt_encrypt {key : List Nat} (hk : key.length = 32) (nonce pt : List Nat) :
    gcmDecrypt key nonce (gcmEncrypt key nonce pt) = some pt := by
  unfold gcmEncrypt gcmDecrypt
  rw [List.length_append, gcmTag_length]
  rw [if_neg (by omega)]
  have heq : (gcmCipher key nonce pt).length + 16 - 16 = (gcmCipher key nonce pt).length := by
    omega
  rw [heq, List.take_left, List.drop_left, if_pos rfl, gcmCipher_invol hk]

theorem encrypt_frame_ok {key : List Nat} (nonce pt : List Nat) (hk : key.length = 32) :
    encrypt_frame key nonce pt =
      Except.ok (String.mk (b64Encode nonce), String.mk (b64Encode (gcmEncrypt key nonce pt))) := by
  unfold encrypt_frame
  rw [if_pos hk]

theorem sha256_words_lt : ∀ hs : List Nat,
    ∀ x ∈ hs.foldr (fun w acc => word32Bytes w ++ acc) [], x < 256 := by
  intro hs
  induction hs with
  | nil => simp
  | cons a t ih =>
    intro x hx
    simp only [List.foldr_cons, List.mem_append] at hx
    rcases hx with hx | hx
    · exact (word32Bytes_byteWord a).2 x hx
    · exact ih x hx

theorem sha256_lt (msg : List Nat) : ∀ x ∈ sha256 msg, x < 256 :=
  sha256_words_lt _

theorem mem_of_mem_enumFrom {α : Type} :
    ∀ (l : List α) (n : Nat) (p : Nat × α), p ∈ l.enumFrom n → p.2 ∈ l := by
  intro l
  induction l with
  | nil => intro n p h; simp [List.enumFrom] at h
  | cons a t ih =>
    intro n p h
    simp only [List.enumFrom, List.mem_cons] at h
    rcases h with rfl | h
    · simp
    · exact List.mem_cons_of_mem a (ih (n + 1) p h)

theorem enumFrom_xor_invol (k : Nat → Nat) :
    ∀ (l : List Nat) (n : Nat),
      (((l.enumFrom n).map (fun p => p.2 ^^^ k p.1)).enumFrom n).map
        (fun p => p.2 ^^^ k p.1) = l := by
  intro l
  induction l with
  | nil => intro n; rfl
  | cons a t ih =>
    intro n
    simp only [List.enumFrom, List.map_cons, List.cons.injEq]
    exact ⟨Nat.xor_cancel_right (k n) a, ih (n + 1)⟩

/-- Decrypting the canonical base64 encoding of a GCM encryption with the same
key and nonce recovers the plaintext. -/
theorem decrypt_encrypt_b64 {key nonce pt : List Nat} (hk : key.length = 32)
    (hn : nonce.length = 12) (hnb : ∀ b ∈ nonce, b < 256) (hpb : ∀ b ∈ pt, b < 256) :
    decrypt_frame key (String.mk (b64Encode nonce))
      (String.mk (b64Encode (gcmEncrypt key nonce pt))) = Except.ok pt := by
  unfold decrypt_frame
  rw [if_pos hk]
  have h1 : b64Decode (String.mk (b64Encode nonce)).toList = some nonce :=
    b64_roundtrip nonce hnb
  have h2 : b64Decode (String.mk (b64Encode (gcmEncrypt key nonce pt))).toList =
      some (gcmEncrypt key nonce pt) :=
    b64_roundtrip _ (gcmEncrypt_lt hk hpb)
  rw [h1, h2]
  simp only [hn, if_pos, gcmDecrypt_encrypt hk]

/-- C1: for every plaintext byte sequence and every 32-byte key, decrypting the
output of `encrypt_frame` with the same key via `decrypt_frame` (after the
base64 round-trip of nonce and ciphertext) returns exactly the original
plaintext. -/
theorem c1_frame_roundtrip (key nonce pt : List Nat) (hk : key.length = 32)
    (hn : nonce.length = 12) (hnb : ∀ b ∈ nonce, b < 256) (hpb : ∀ b ∈ pt, b < 256) :
    frame_roundTrip key nonce pt = Except.ok pt := by
  unfold frame_roundTrip
  rw [encrypt_frame_ok nonce pt hk]
  exact decrypt_encrypt_b64 hk hn hnb hpb

theorem c1_frame_roundtrip_witness :
    frame_roundTrip (List.replicate 32 0) (List.replicate 12 0) [104, 101, 108, 108, 111] =
      Except.ok [104, 101, 108, 108, 111] :=
  c1_frame_roundtrip _ _ _ (by decide) (by decide) (by decide) (by decide)

/-- C2: `encrypt_with_pairing_code` is deterministic, the base64-decode-then-XOR
inverse recovers the original secret exactly, and for code "AB23XZ" with the
all-zero 32-byte secret the output is a fixed (deterministic) value that
decodes to 32 bytes and from which the inverse recovers 32 zero bytes. -/
theorem c2_pairing_code_roundtrip :
    (∀ (c1 c2 : String) (s1 s2 : List Nat), c1 = c2 → s1 = s2 →
        encrypt_with_pairing_code c1 s1 = encrypt_with_pairing_code c2 s2) ∧
    (∀ (code : String) (secret : List Nat), (∀ b ∈ secret, b < 256) →
        decrypt_with_pairing_code code (encrypt_with_pairing_code code secret) = some secret) ∧
    (∃ out32, b64Decode (encrypt_with_pairing_code "AB23XZ"
        (List.replicate 32 0)).toList = some out32 ∧ out32.length = 32) ∧
    decrypt_with_pairing_code "AB23XZ" (encrypt_with_pairing_code "AB23XZ" (List.replicate 32 0)) =
      some (List.replicate 32 0) := by
  have hencb : ∀ (code : String) (secret : List Nat), (∀ b ∈ secret, b < 256) →
      ∀ x ∈ secret.enum.map
        (fun p => p.2 ^^^ (pairingKeystream code).getD (p.1 % 32) 0), x < 256 := by
    intro code secret hb x hx
    simp only [List.mem_map] at hx
    obtain ⟨p, hp, rfl⟩ := hx
    exact xor_lt_256 (hb p.2 (mem_of_mem_enumFrom secret 0 p hp))
      (getD_prop (sha256_lt _) (by omega) _)
  have hgen : ∀ (code : String) (secret : List Nat), (∀ b ∈ secret, b < 256) →
      decrypt_with_pairing_code code (encrypt_with_pairing_code code secret) = some secret := by
    intro code secret hb
    unfold decrypt_with_pairing_code encrypt_with_pairing_code
    rw [show (String.mk (b64Encode (secret.enum.map
          (fun p => p.2 ^^^ (pairingKeystream code).getD (p.1 % 32) 0)))).toList
        = b64Encode (secret.enum.map
          (fun p => p.2 ^^^ (pairingKeystream code).getD (p.1 % 32) 0)) from rfl]
    rw [b64_roundtrip _ (hencb code secret hb)]
    exact congrArg some
      (enumFrom_xor_invol (fun i => (pairingKeystream code).getD (i % 32) 0) secret 0)
  refine ⟨fun c1 c2 s1 s2 hc hs => by rw [hc, hs], hgen, ?_, ?_⟩
  · refine ⟨(List.replicate 32 0).enum.map
      (fun p => p.2 ^^^ (pairingKeystream "AB23XZ").getD (p.1 % 32) 0), ?_, by simp⟩
    unfold encrypt_with_pairing_code
    exact b64_roundtrip _ (hencb "AB23XZ" (List.replicate 32 0) (by simp))
  · exact hgen "AB23XZ" (List.replicate 32 0) (by simp)

theorem c2_pairing_code_roundtrip_witness :
    decrypt_with_pairing_code "QX" (encrypt_with_pairing_code "QX" [1, 2, 3]) = some [1, 2, 3] :=
  c2_pairing_code_roundtrip.2.1 "QX" [1, 2, 3] (by decide)

/-! ## Association-list lemmas -/

theorem find?_map_insert_of_found {α : Type} (v : α) :
    ∀ (m : List (String × α)) (k : String),
      (m.find? (fun p => p.1 = k)).isSome = true →
      ((m.map (fun p => if p.1 = k then (k, v) else p)).find? (fun p => p.1 = k)) =
        some (k, v) := by
  intro m
  induction m with
  | nil => intro k h; simp [List.find?] at h
  | cons p t ih =>
    intro k h
    by_cases hp : p.1 = k
    · simp only [List.map_cons, if_pos hp]
      exact List.find?_cons_of_pos _ (by simp)
    · rw [List.find?_cons_of_neg _ (by simpa using hp)] at h
      simp only [List.map_cons, if_neg hp]
      rw [List.find?_cons_of_neg _ (by simpa using hp)]
      exact ih k h

theorem find?_append_single {α : Type} (v : α) :
    ∀ (m : List (String × α)) (k : String),
      m.find? (fun p => p.1 = k) = none →
      (m ++ [(k, v)]).find? (fun p => p.1 = k) = some (k, v) := by
  intro m
  induction m with
  | nil =>
    intro k _
    simp only [List.nil_append]
    exact List.find?_cons_of_pos _ (by simp)
  | cons p t ih =>
    intro k h
    by_cases hp : p.1 = k
    · rw [List.find?_cons_of_pos _ (by simpa using hp)] at h
      exact absurd h (by simp)
    · rw [List.find?_cons_of_neg _ (by simpa using hp)] at h
      simp only [List.cons_append]
      rw [List.find?_cons_of_neg _ (by simpa using hp)]
      exact ih k h

theorem alGet_alInsert {α : Type} (m : List (String × α)) (k : String) (v : α) :
    alGet (alInsert m k v) k = some v := by
  unfold alInsert alGet
  by_cases h : (m.find? (fun p => p.1 = k)).isSome = true
  · rw [if_pos h, find?_map_insert_of_found v m k h]
  · rw [if_neg h]
    have hnone : m.find? (fun p => p.1 = k) = none := by
      rcases hfind : m.find? (fun p => p.1 = k) with _ | p
      · exact hfind
      · exact absurd (by simp [hfind]) h
    rw [find?_append_single v m k hnone]

theorem alGet_alRemove {α : Type} (m : List (String × α)) (k : String) :
    alGet (alRemove m k) k = none := by
  unfold alRemove alGet
  induction m with
  | nil => rfl
  | cons p t ih =>
    by_cases hp : p.1 = k
    · simp only [List.filter_cons, hp]
      simpa using ih
    · simp only [List.filter_cons]
      rw [if_pos (by simpa using hp)]
      rw [List.find?_cons_of_neg _ (by simpa using hp)]
      exact ih

/-- C4: an inbound frame envelope whose device_id is absent from the device
registry enqueues no outbound message and leaves the whole relay state (and
the event stream) unchanged; the handler is total, so no panic. -/
theorem c4_unknown_device_drop (parseInner : List Nat → Option InnerMessage)
    (now tsMillis : Int) (ackNonce : List Nat) (st : MRelayState) (msg : RelayMessage)
    (ht : msg.t = "frame")
    (hdev : alGet st.devices (msg.device_id.getD "") = none) :
    handle_message parseInner now tsMillis ackNonce st msg =
      { state := st, events := [], outbound := [] } := by
  unfold handle_message
  rw [ht]
  rw [if_neg (by decide), if_neg (by decide), if_pos rfl]
  simp only [hdev]

theorem c4_unknown_device_drop_witness :
    handle_message (fun _ => none) 0 0 []
      { config := { enabled := true, server_url := "wss://x", host_id := "h",
                    master_secret := "m" },
        devices := [], pending_pairings := [], current_pairing_code := none,
        sender := true, connected := true }
      { t := "frame", device_id := some "ghost" } =
      { state := { config := { enabled := true, server_url := "wss://x", host_id := "h",
                               master_secret := "m" },
                   devices := [], pending_pairings := [], current_pairing_code := none,
                   sender := true, connected := true },
        events := [], outbound := [] } :=
  c4_unknown_device_drop _ _ _ _ _ _ rfl rfl

/-- C3: a frame envelope from a registered device whose decryption and parsing
yield a `download` inner message with cmd_id "x1" produces exactly one local
extension-download event and exactly one outbound encrypted ack frame whose
inner message is `ack` with cmd_id "x1" and success true. -/
theorem c3_download_dispatch (parseInner : List Nat → Option InnerMessage)
    (now tsMillis : Int) (ackNonce : List Nat) (st : MRelayState) (msg : RelayMessage)
    (device : PairedDevice) (s ptx : List Nat) (inner : InnerMessage)
    (ht : msg.t = "frame")
    (hdev : alGet st.devices (msg.device_id.getD "") = some device)
    (hsec : b64Decode device.secret.toList = some s)
    (hlen : s.length = 32)
    (hdec : decrypt_frame s (msg.nonce.getD "") (msg.box_data.getD "") = Except.ok ptx)
    (hparse : parseInner ptx = some inner)
    (htype : inner.msg_type = "download")
    (hcmd : inner.cmd_id = some "x1")
    (hnl : ackNonce.length = 12) (hnb : ∀ b ∈ ackNonce, b < 256) :
    (handle_message parseInner now tsMillis ackNonce st msg).events =
      [AppEvent.extensionDownload (inner.url.getD "") inner.title inner.thumbnail
        "x1" (inner.open_app.getD false) (msg.device_id.getD "") true] ∧
    (handle_message parseInner now tsMillis ackNonce st msg).outbound =
      [{ t := "frame", device_id := some (msg.device_id.getD ""),
         nonce := some (String.mk (b64Encode ackNonce)),
         box_data := some (String.mk (b64Encode (gcmEncrypt s ackNonce (strBytes (innerToJson
           { msg_type := "ack", cmd_id := some "x1", success := some true }))))) }] ∧
    decrypt_frame s (String.mk (b64Encode ackNonce))
      (String.mk (b64Encode (gcmEncrypt s ackNonce (strBytes (innerToJson
        { msg_type := "ack", cmd_id := some "x1", success := some true }))))) =
      Except.ok (strBytes (innerToJson
        { msg_type := "ack", cmd_id := some "x1", success := some true })) := by
  have hmsg : handle_message parseInner now tsMillis ackNonce st msg =
      handle_inner_message now tsMillis ackNonce st (msg.device_id.getD "") s inner := by
    unfold handle_message
    rw [ht]
    rw [if_neg (by decide), if_neg (by decide), if_pos rfl]
    simp only [hdev, hsec, hlen, if_pos, hdec, hparse]
  have hinner : handle_inner_message now tsMillis ackNonce st (msg.device_id.getD "") s inner =
      ⟨{ st with devices :=
           alUpdate st.devices (msg.device_id.getD "") (metaUpdate now inner.msg_type) },
       [AppEvent.extensionDownload (inner.url.getD "") inner.title inner.thumbnail
         "x1" (inner.open_app.getD false) (msg.device_id.getD "") true],
       send_ack (msg.device_id.getD "") s "x1" true none ackNonce⟩ := by
    unfold handle_inner_message
    rw [htype]
    rw [if_neg (by decide), if_pos rfl]
    simp only [hcmd, Option.getD_some]
  have hack : send_ack (msg.device_id.getD "") s "x1" true none ackNonce =
      [{ t := "frame", device_id := some (msg.device_id.getD ""),
         nonce := some (String.mk (b64Encode ackNonce)),
         box_data := some (String.mk (b64Encode (gcmEncrypt s ackNonce (strBytes (innerToJson
           { msg_type := "ack", cmd_id := some "x1", success := some true }))))) }] := by
    unfold send_ack
    simp only [encrypt_frame_ok _ _ hlen]
  refine ⟨?_, ?_, ?_⟩
  · rw [hmsg, hinner]
  · rw [hmsg, hinner, hack]
  · exact decrypt_encrypt_b64 hlen hnl hnb (by decide)

theorem c3_download_dispatch_witness :
    (handle_message (fun _ => some { msg_type := "download", cmd_id := some "x1" }) 0 0
      (List.replicate 12 0)
      { config := { enabled := true, server_url := "wss://x", host_id := "h",
                    master_secret := "m" },
        devices := [("d", { device_id := "d", device_name := "n", browser := "b",
                            secret := String.mk (b64Encode (List.replicate 32 0)),
                            paired_at := 0, last_seen := 0, last_command_at := 0,
                            command_count := 0 })],
        pending_pairings := [], current_pairing_code := none, sender := true,
        connected := true }
      { t := "frame", device_id := some "d",
        nonce := some (String.mk (b64Encode (List.replicate 12 0))),
        box_data := some (String.mk (b64Encode (gcmEncrypt (List.replicate 32 0)
          (List.replicate 12 0) []))) }).events =
      [AppEvent.extensionDownload "" none none "x1" false "d" true] ∧
    (handle_message (fun _ => some { msg_type := "download", cmd_id := some "x1" }) 0 0
      (List.replicate 12 0)
      { config := { enabled := true, server_url := "wss://x", host_id := "h",
                    master_secret := "m" },
        devices := [("d", { device_id := "d", device_name := "n", browser := "b",
                            secret := String.mk (b64Encode (List.replicate 32 0)),
                            paired_at := 0, last_seen := 0, last_command_at := 0,
                            command_count := 0 })],
        pending_pairings := [], current_pairing_code := none, sender := true,
        connected := true }
      { t := "frame", device_id := some "d",
        nonce := some (String.mk (b64Encode (List.replicate 12 0))),
        box_data := some (String.mk (b64Encode (gcmEncrypt (List.replicate 32 0)
          (List.replicate 12 0) []))) }).outbound =
      [{ t := "frame", device_id := some "d",
         nonce := some (String.mk (b64Encode (List.replicate 12 0))),
         box_data := some (String.mk (b64Encode (gcmEncrypt (List.replicate 32 0)
           (List.replicate 12 0) (strBytes (innerToJson
             { msg_type := "ack", cmd_id := some "x1", success := some true }))))) }] ∧
    decrypt_frame (List.replicate 32 0) (String.mk (b64Encode (List.replicate 12 0)))
      (String.mk (b64Encode (gcmEncrypt (List.replicate 32 0) (List.replicate 12 0)
        (strBytes (innerToJson
          { msg_type := "ack", cmd_id := some "x1", success := some true }))))) =
      Except.ok (strBytes (innerToJson
        { msg_type := "ack", cmd_id := some "x1", success := some true })) :=
  c3_download_dispatch (fun _ => some { msg_type := "download", cmd_id := some "x1" }) 0 0
    (List.replicate 12 0)
    { config := { enabled := true, server_url := "wss://x", host_id := "h",
                  master_secret := "m" },
      devices := [("d", { device_id := "d", device_name := "n", browser := "b",
                          secret := String.mk (b64Encode (List.replicate 32 0)),
                          paired_at := 0, last_seen := 0, last_command_at := 0,
                          command_count := 0 })],
      pending_pairings := [], current_pairing_code := none, sender := true,
      connected := true }
    { t := "frame", device_id := some "d",
      nonce := some (String.mk (b64Encode (List.replicate 12 0))),
      box_data := some (String.mk (b64Encode (gcmEncrypt (List.replicate 32 0)
        (List.replicate 12 0) []))) }
    { device_id := "d", device_name := "n", browser := "b",
      secret := String.mk (b64Encode (List.replicate 32 0)), paired_at := 0,
      last_seen := 0, last_command_at := 0, command_count := 0 }
    (List.replicate 32 0) [] { msg_type := "download", cmd_id := some "x1" }
    rfl (by decide) (b64_roundtrip _ (by decide)) (by decide)
    (decrypt_encrypt_b64 (by decide) (by decide) (by decide) (by decide))
    rfl rfl rfl (by decide) (by decide)

theorem send_ack_eq {device_id cmd_id : String} {secret : List Nat} (hs : secret.length = 32)
    (success : Bool) (error : Option String) (ackNonce : List Nat) :
    send_ack device_id secret cmd_id success error ackNonce =
      [{ t := "frame", device_id := some device_id,
         nonce := some (String.mk (b64Encode ackNonce)),
         box_data := some (String.mk (b64Encode (gcmEncrypt secret ackNonce (strBytes
           (innerToJson { msg_type := "ack", cmd_id := some cmd_id,
                          success := some success, error := error }))))) }] := by
  unfold send_ack
  simp only [encrypt_frame_ok _ _ hs]

/-- C9 (implicit): for a successfully decrypted and parsed probe/download/cancel
inner message, an outbound ack frame is enqueued iff the message carries a
cmd_id; a message without cmd_id still emits its event (download/cancel) and
updates the device metadata, but produces no ack. -/
theorem c9_ack_iff_cmd_id (now tsMillis : Int) (ackNonce : List Nat) (st : MRelayState)
    (device_id : String) (secret : List Nat) (msg : InnerMessage)
    (hs : secret.length = 32)
    (hty : msg.msg_type = "probe" ∨ msg.msg_type = "download" ∨ msg.msg_type = "cancel") :
    ((handle_inner_message now tsMillis ackNonce st device_id secret msg).outbound ≠ [] ↔
      msg.cmd_id.isSome = true) ∧
    (handle_inner_message now tsMillis ackNonce st device_id secret msg).outbound.length =
      (if msg.cmd_id.isSome then 1 else 0) ∧
    (msg.msg_type = "download" ∨ msg.msg_type = "cancel" →
      (handle_inner_message now tsMillis ackNonce st device_id secret msg).events.length = 1) ∧
    (msg.msg_type = "probe" →
      (handle_inner_message now tsMillis ackNonce st device_id secret msg).events = []) ∧
    (handle_inner_message now tsMillis ackNonce st device_id secret msg).state =
      { st with devices := alUpdate st.devices device_id (metaUpdate now msg.msg_type) } := by
  rcases hty with h | h | h
  · unfold handle_inner_message
    rw [h, if_pos rfl]
    cases hc : msg.cmd_id with
    | none => simp [h]
    | some cmd => simp [h, send_ack_eq hs]
  · unfold handle_inner_message
    rw [h, if_neg (by decide), if_pos rfl]
    cases hc : msg.cmd_id with
    | none => simp [h]
    | some cmd => simp [h, send_ack_eq hs]
  · unfold handle_inner_message
    rw [h, if_neg (by decide), if_neg (by decide), if_pos rfl]
    cases hc : msg.cmd_id with
    | none => simp [h]
    | some cmd => simp [h, send_ack_eq hs]

theorem c9_ack_iff_cmd_id_witness :
    ((handle_inner_message 0 0 [] fixtureState "d" (List.replicate 32 0)
        { msg_type := "download" }).outbound ≠ [] ↔
      (none : Option String).isSome = true) ∧
    (handle_inner_message 0 0 [] fixtureState "d" (List.replicate 32 0)
        { msg_type := "download" }).outbound.length =
      (if (none : Option String).isSome then 1 else 0) ∧
    ("download" = "download" ∨ "download" = "cancel" →
      (handle_inner_message 0 0 [] fixtureState "d" (List.replicate 32 0)
        { msg_type := "download" }).events.length = 1) ∧
    ("download" = "probe" →
      (handle_inner_message 0 0 [] fixtureState "d" (List.replicate 32 0)
        { msg_type := "download" }).events = []) ∧
    (handle_inner_message 0 0 [] fixtureState "d" (List.replicate 32 0)
        { msg_type := "download" }).state =
      { fixtureState with
          devices := alUpdate fixtureState.devices "d" (metaUpdate 0 "download") } :=
  c9_ack_iff_cmd_id 0 0 [] fixtureState "d" (List.replicate 32 0) { msg_type := "download" }
    (by decide) (Or.inr (Or.inl rfl))

/-- C6: a pairing_request envelope is answered with a pairing_reject iff no
pairing session is active or the presented code differs from the current code;
otherwise a PendingPairing is recorded and surfaced to the user; in both cases
no PairedDevice is ever created. -/
theorem c6_pairing_request (parseInner : List Nat → Option InnerMessage)
    (now tsMillis : Int) (ackNonce : List Nat) (st : MRelayState) (msg : RelayMessage)
    (ht : msg.t = "pairing_request") :
    ((handle_message parseInner now tsMillis ackNonce st msg).outbound =
        [{ t := "pairing_reject", device_id := some (msg.device_id.getD "") }] ↔
      st.current_pairing_code ≠ some (msg.code.getD "")) ∧
    (st.current_pairing_code = some (msg.code.getD "") →
      (handle_message parseInner now tsMillis ackNonce st msg).state.pending_pairings =
        alInsert st.pending_pairings (msg.device_id.getD "")
          ⟨msg.device_id.getD "", msg.device_name.getD "Unknown",
           msg.browser.getD "Browser", msg.code.getD ""⟩ ∧
      (handle_message parseInner now tsMillis ackNonce st msg).events =
        [AppEvent.relayPairingRequest
          ⟨msg.device_id.getD "", msg.device_name.getD "Unknown",
           msg.browser.getD "Browser", msg.code.getD ""⟩] ∧
      (handle_message parseInner now tsMillis ackNonce st msg).outbound = []) ∧
    (handle_message parseInner now tsMillis ackNonce st msg).state.devices = st.devices := by
  unfold handle_message
  rw [ht]
  rw [if_neg (by decide), if_pos rfl]
  by_cases hc : st.current_pairing_code = some (msg.code.getD "")
  · rw [if_neg (by simpa using hc)]
    exact ⟨⟨fun h => by simp at h, fun h => absurd hc h⟩, fun _ => ⟨rfl, rfl, rfl⟩, rfl⟩
  · rw [if_pos (by simpa using hc)]
    exact ⟨⟨fun _ => hc, fun _ => rfl⟩, fun h => absurd h hc, rfl⟩

theorem c6_pairing_request_witness :
    ((handle_message (fun _ => none) 0 0 []
        { fixtureState with current_pairing_code := some "ABCDEF" }
        { t := "pairing_request", device_id := some "d", code := some "ABCDEF",
          device_name := some "N", browser := some "B" }).outbound =
        [{ t := "pairing_reject", device_id := some "d" }] ↔
      (some "ABCDEF" : Option String) ≠ some "ABCDEF") ∧
    ((some "ABCDEF" : Option String) = some "ABCDEF" →
      (handle_message (fun _ => none) 0 0 []
        { fixtureState with current_pairing_code := some "ABCDEF" }
        { t := "pairing_request", device_id := some "d", code := some "ABCDEF",
          device_name := some "N", browser := some "B" }).state.pending_pairings =
        alInsert [] "d" ⟨"d", "N", "B", "ABCDEF"⟩ ∧
      (handle_message (fun _ => none) 0 0 []
        { fixtureState with current_pairing_code := some "ABCDEF" }
        { t := "pairing_request", device_id := some "d", code := some "ABCDEF",
          device_name := some "N", browser := some "B" }).events =
        [AppEvent.relayPairingRequest ⟨"d", "N", "B", "ABCDEF"⟩] ∧
      (handle_message (fun _ => none) 0 0 []
        { fixtureState with current_pairing_code := some "ABCDEF" }
        { t := "pairing_request", device_id := some "d", code := some "ABCDEF",
          device_name := some "N", browser := some "B" }).outbound = []) ∧
    (handle_message (fun _ => none) 0 0 []
        { fixtureState with current_pairing_code := some "ABCDEF" }
        { t := "pairing_request", device_id := some "d", code := some "ABCDEF",
          device_name := some "N", browser := some "B" }).state.devices = [] :=
  c6_pairing_request (fun _ => none) 0 0 [] _ _ rfl

theorem pairing_request_rejected_of_no_code (parseInner : List Nat → Option InnerMessage)
    (now tsMillis : Int) (ackNonce : List Nat) (st : MRelayState) (msg : RelayMessage)
    (ht : msg.t = "pairing_request") (hc : st.current_pairing_code = none) :
    handle_message parseInner now tsMillis ackNonce st msg =
      ⟨st, [], [{ t := "pairing_reject", device_id := some (msg.device_id.getD "") }]⟩ := by
  unfold handle_message
  rw [ht, if_neg (by decide), if_pos rfl, if_pos (by simp [hc])]

theorem c5_counterexample :
    (accept_pairing
      { fixtureState with
          pending_pairings := [("d", ⟨"d", "N", "B", "AB"⟩)],
          current_pairing_code := some "AB", sender := false }
      "d" (List.replicate 32 0) 0).toOption.map Prod.snd =
      some ([] : List RelayMessage) := by decide

/-- C5 (amended): accept_pairing fails when no PendingPairing exists; when one
exists it generates a fresh 32-byte secret, persists a new PairedDevice holding
that secret, clears the current pairing code (so a later pairing_request is
rejected at the code-match check — first-accept-wins), removes the pending
entry, and — when an outbound sender is connected — sends the pairing_accept
envelope carrying the device id and the keystream-encrypted secret (when
disconnected, nothing is sent). -/
theorem c5_accept_pairing (st : MRelayState) (device_id : String)
    (freshSecret : List Nat) (now : Int) :
    (alGet st.pending_pairings device_id = none →
      accept_pairing st device_id freshSecret now = Except.error "No pending pairing") ∧
    (∀ pending, alGet st.pending_pairings device_id = some pending →
      ∃ st', accept_pairing st device_id freshSecret now = Except.ok (st',
          if st.sender then
            [{ t := "pairing_accept", device_id := some device_id,
               encrypted_secret :=
                 some (encrypt_with_pairing_code pending.code freshSecret) }]
          else []) ∧
        alGet st'.devices device_id = some
          { device_id := device_id, device_name := pending.device_name,
            browser := pending.browser, secret := String.mk (b64Encode freshSecret),
            paired_at := now, last_seen := now, last_command_at := 0,
            command_count := 0 } ∧
        st'.current_pairing_code = none ∧
        alGet st'.pending_pairings device_id = none ∧
        (∀ (parseInner : List Nat → Option InnerMessage) (now2 ts2 : Int)
            (nonce2 : List Nat) (msg2 : RelayMessage), msg2.t = "pairing_request" →
          (handle_message parseInner now2 ts2 nonce2 st' msg2).outbound =
            [{ t := "pairing_reject", device_id := some (msg2.device_id.getD "") }] ∧
          (handle_message parseInner now2 ts2 nonce2 st' msg2).state = st')) := by
  constructor
  · intro h
    unfold accept_pairing
    rw [h]
  · intro pending hp
    refine ⟨{ config := st.config,
              devices := alInsert st.devices device_id
                { device_id := device_id, device_name := pending.device_name,
                  browser := pending.browser, secret := String.mk (b64Encode freshSecret),
                  paired_at := now, last_seen := now, last_command_at := 0,
                  command_count := 0 },
              pending_pairings := alRemove st.pending_pairings device_id,
              current_pairing_code := none, sender := st.sender,
              connected := st.connected }, ?_, ?_, rfl, ?_, ?_⟩
    · unfold accept_pairing
      rw [hp]
    · exact alGet_alInsert _ _ _
    · exact alGet_alRemove _ _
    · intro parseInner now2 ts2 nonce2 msg2 ht2
      rw [pairing_request_rejected_of_no_code parseInner now2 ts2 nonce2 _ msg2 ht2 rfl]
      exact ⟨rfl, rfl⟩

theorem c5_accept_pairing_witness :
    ∃ st', accept_pairing
        { fixtureState with
            pending_pairings := [("d", ⟨"d", "N", "B", "AB"⟩)],
            current_pairing_code := some "AB" }
        "d" (List.replicate 32 0) 0 = Except.ok (st',
          [{ t := "pairing_accept", device_id := some "d",
             encrypted_secret :=
               some (encrypt_with_pairing_code "AB" (List.replicate 32 0)) }]) ∧
      alGet st'.devices "d" = some
        { device_id := "d", device_name := "N", browser := "B",
          secret := String.mk (b64Encode (List.replicate 32 0)),
          paired_at := 0, last_seen := 0, last_command_at := 0, command_count := 0 } ∧
      st'.current_pairing_code = none ∧
      alGet st'.pending_pairings "d" = none ∧
      (∀ (parseInner : List Nat → Option InnerMessage) (now2 ts2 : Int)
          (nonce2 : List Nat) (msg2 : RelayMessage), msg2.t = "pairing_request" →
        (handle_message parseInner now2 ts2 nonce2 st' msg2).outbound =
          [{ t := "pairing_reject", device_id := some (msg2.device_id.getD "") }] ∧
        (handle_message parseInner now2 ts2 nonce2 st' msg2).state = st') :=
  (c5_accept_pairing _ "d" (List.replicate 32 0) 0).2 ⟨"d", "N", "B", "AB"⟩ (by decide)

theorem c7_counterexample :
    PAIRING_CHARSET.length = 32 ∧ ¬ PAIRING_CHARSET.length = 33 := by decide

/-- C7 (amended): every pairing code returned by start_pairing is exactly 6
characters long, every character is drawn from the 32-symbol unambiguous
alphabet (which excludes the visually confusable I, O, 0, 1), and the code is
stored as the current pairing code. -/
theorem c7_pairing_code_shape (st : MRelayState) (draws : List Nat)
    (hd : ∀ i, i < 6 → draws.getD i 0 < 32) :
    (start_pairing st draws).2.length = 6 ∧
    (∀ c ∈ (start_pairing st draws).2.toList, c ∈ PAIRING_CHARSET) ∧
    (start_pairing st draws).1.current_pairing_code = some (start_pairing st draws).2 ∧
    PAIRING_CHARSET.length = 32 ∧ PAIRING_CHARSET.Nodup ∧
    'I' ∉ PAIRING_CHARSET ∧ 'O' ∉ PAIRING_CHARSET ∧
    '0' ∉ PAIRING_CHARSET ∧ '1' ∉ PAIRING_CHARSET := by
  refine ⟨rfl, ?_, rfl, by decide, by decide, by decide, by decide, by decide, by decide⟩
  intro c hc
  simp only [start_pairing, generate_pairing_code] at hc
  have : (String.mk ((List.range 6).map
      (fun i => PAIRING_CHARSET.getD (draws.getD i 0) '?'))).toList =
      (List.range 6).map (fun i => PAIRING_CHARSET.getD (draws.getD i 0) '?') := rfl
  rw [this] at hc
  simp only [List.mem_map, List.mem_range] at hc
  obtain ⟨i, hi, rfl⟩ := hc
  have hlt : draws.getD i 0 < PAIRING_CHARSET.length := by
    have := hd i hi
    simpa using this
  exact getD_mem hlt

theorem c7_pairing_code_shape_witness :
    (start_pairing
fixtureState [0, 1, 2, 3, 4, 31]).2.length = 6 ∧
    (∀ c ∈ (start_pairing
fixtureState [0, 1, 2, 3, 4, 31]).2.toList,
        c ∈ PAIRING_CHARSET) ∧
    (start_pairing
fixtureState [0, 1, 2, 3, 4, 31]).1.current_pairing_code =
      some (start_pairing
fixtureState [0, 1, 2, 3, 4, 31]).2 ∧
    PAIRING_CHARSET.length = 32 ∧ PAIRING_CHARSET.Nodup ∧
    'I' ∉ PAIRING_CHARSET ∧ 'O' ∉ PAIRING_CHARSET ∧
    '0' ∉ PAIRING_CHARSET ∧ '1' ∉ PAIRING_CHARSET :=
  c7_pairing_code_shape _ [0, 1, 2, 3, 4, 31] (by decide)

theorem b64Encode_ne_nil : ∀ l : List Nat, l ≠ [] → b64Encode l ≠ []
  | [], h => absurd rfl h
  | [_], _ => by simp [b64Encode]
  | [_, _], _ => by simp [b64Encode]
  | _ :: _ :: _ :: _, _ => by simp [b64Encode]

theorem stringMk_ne_empty {l : List Char} (h : l ≠ []) : String.mk l ≠ "" := by
  intro he
  exact h (by simpa using congrArg String.toList he)

theorem ne_empty_of_trim_ne {s : String} (h : strTrim s ≠ "") : s ≠ "" := by
  intro he
  subst he
  exact h (by decide)

theorem generate_host_id_ne_empty {bs : List Nat} (h : bs ≠ []) :
    generate_host_id bs ≠ "" := by
  unfold generate_host_id
  apply stringMk_ne_empty
  cases bs with
  | nil => exact absurd rfl h
  | cons b t => simp

theorem generate_master_secret_ne_empty {bs : List Nat} (h : bs ≠ []) :
    generate_master_secret bs ≠ "" :=
  stringMk_ne_empty (b64Encode_ne_nil bs h)

theorem heal_server_url_spec (u : String) :
    (strStartsWith (heal_server_url u).1 "ws://" = true ∨
     strStartsWith (heal_server_url u).1 "wss://" = true) ∧
    ((heal_server_url u).2 = true ↔
      (strTrim u = "" ∨
       ¬(strStartsWith u "ws://" = true ∨ strStartsWith u "wss://" = true))) := by
  unfold heal_server_url
  by_cases h1 : strTrim u = ""
  · rw [if_pos h1]
    exact ⟨Or.inr (by decide), by simp [h1]⟩
  · rw [if_neg h1]
    by_cases h2 : (strStartsWith u "ws://" || strStartsWith u "wss://") = true
    · rw [if_neg (by simp [h2])]
      refine ⟨by simpa [Bool.or_eq_true] using h2, ?_⟩
      simp only [Bool.or_eq_true] at h2
      simp [h1, h2]
    · rw [if_pos (by simp only [Bool.not_eq_true] at h2 ⊢; simp [h2])]
      refine ⟨Or.inr (by decide), ?_⟩
      simp only [Bool.or_eq_true] at h2
      simp [h1, h2]

theorem heal_host_id_spec (h : String) (bs : List Nat) (hbs : bs ≠ []) :
    (heal_host_id h bs).1 ≠ "" ∧ ((heal_host_id h bs).2 = true ↔ strTrim h = "") := by
  unfold heal_host_id
  by_cases h1 : strTrim h = ""
  · rw [if_pos h1]
    exact ⟨generate_host_id_ne_empty hbs, by simp [h1]⟩
  · rw [if_neg h1]
    exact ⟨ne_empty_of_trim_ne h1, by simp [h1]⟩

theorem heal_master_secret_spec (s : String) (bs : List Nat) (hbs : bs ≠ []) :
    (heal_master_secret s bs).1 ≠ "" ∧
    ((heal_master_secret s bs).2 = true ↔ strTrim s = "") := by
  unfold heal_master_secret
  by_cases h1 : strTrim s = ""
  · rw [if_pos h1]
    exact ⟨generate_master_secret_ne_empty hbs, by simp [h1]⟩
  · rw [if_neg h1]
    exact ⟨ne_empty_of_trim_ne h1, by simp [h1]⟩

/-- C8: on the Ok path of `RelayState::load`, every empty or invalid
`RelayConfig` field in the loaded file has been regenerated — the resulting
in-memory config always has a server_url with a ws or wss scheme and
non-empty host_id and master_secret — and `save_config` is invoked exactly
when some field was repaired (or the file was missing). -/
theorem c8_load_self_healing (curH curS hB sB : List Nat) (file : Option RelayConfig)
    (hcH : curH.length = 16) (hcS : curS.length = 32)
    (hhB : hB.length = 16) (hsB : sB.length = 32) :
    (strStartsWith (load_relay_config (RelayConfig.defaultWith curH curS) file hB sB).1.server_url
        "ws://" = true ∨
     strStartsWith (load_relay_config (RelayConfig.defaultWith curH curS) file hB sB).1.server_url
        "wss://" = true) ∧
    (load_relay_config (RelayConfig.defaultWith curH curS) file hB sB).1.host_id ≠ "" ∧
    (load_relay_config (RelayConfig.defaultWith curH curS) file hB sB).1.master_secret ≠ "" ∧
    (file = none → (load_relay_config (RelayConfig.defaultWith curH curS) file hB sB).2 = true) ∧
    (∀ c0, file = some c0 →
      ((load_relay_config (RelayConfig.defaultWith curH curS) file hB sB).2 = true ↔
        (strTrim c0.server_url = "" ∨
         ¬(strStartsWith c0.server_url "ws://" = true ∨
           strStartsWith c0.server_url "wss://" = true) ∨
         strTrim c0.host_id = "" ∨ strTrim c0.master_secret = ""))) := by
  have hhB' : hB ≠ [] := by intro h; rw [h] at hhB; simp at hhB
  have hsB' : sB ≠ [] := by intro h; rw [h] at hsB; simp at hsB
  have hcH' : curH ≠ [] := by intro h; rw [h] at hcH; simp at hcH
  have hcS' : curS ≠ [] := by intro h; rw [h] at hcS; simp at hcS
  cases file with
  | none =>
    simp only [load_relay_config, RelayConfig.defaultWith]
    refine ⟨Or.inr (by decide), generate_host_id_ne_empty hcH',
      generate_master_secret_ne_empty hcS', fun _ => trivial, fun c0 h => by simp at h⟩
  | some c0 =>
    have hsu := heal_server_url_spec c0.server_url
    have hhi := heal_host_id_spec c0.host_id hB hhB'
    have hms := heal_master_secret_spec c0.master_secret sB hsB'
    simp only [load_relay_config]
    refine ⟨hsu.1, hhi.1, hms.1, fun h => by simp at h, fun c1 h => ?_⟩
    obtain rfl : c0 = c1 := by injection h
    have hsu2 := hsu.2
    have hhi2 := hhi.2
    have hms2 := hms.2
    revert hsu2 hhi2 hms2
    generalize (heal_server_url c0.server_url).2 = a
    generalize (heal_host_id c0.host_id hB).2 = b
    generalize (heal_master_secret c0.master_secret sB).2 = c
    intro hsu2 hhi2 hms2
    clear hsu hhi hms
    cases a <;> cases b <;> cases c <;>
      simp only [Bool.true_or, Bool.or_true, Bool.false_or, Bool.or_false] at hsu2 hhi2 hms2 ⊢ <;>
      simp only [show (true = true) = True from by simp, show (false = true) = False from by simp,
        true_iff, false_iff, iff_true, iff_false] at hsu2 hhi2 hms2 ⊢ <;>
      tauto

theorem c8_load_self_healing_witness :
    (strStartsWith (load_relay_config
        (RelayConfig.defaultWith (List.replicate 16 0) (List.replicate 32 0))
        (some fixtureBadConfig) (List.replicate 16 1) (List.replicate 32 1)).1.server_url
        "ws://" = true ∨
     strStartsWith (load_relay_config
        (RelayConfig.defaultWith (List.replicate 16 0) (List.replicate 32 0))
        (some fixtureBadConfig) (List.replicate 16 1) (List.replicate 32 1)).1.server_url
        "wss://" = true) ∧
    (load_relay_config (RelayConfig.defaultWith (List.replicate 16 0) (List.replicate 32 0))
        (some fixtureBadConfig) (List.replicate 16 1) (List.replicate 32 1)).1.host_id ≠ "" ∧
    (load_relay_config (RelayConfig.defaultWith (List.replicate 16 0) (List.replicate 32 0))
        (some fixtureBadConfig) (List.replicate 16 1)
        (List.replicate 32 1)).1.master_secret ≠ "" ∧
    ((some fixtureBadConfig : Option RelayConfig) = none →
      (load_relay_config (RelayConfig.defaultWith (List.replicate 16 0) (List.replicate 32 0))
        (some fixtureBadConfig) (List.replicate 16 1) (List.replicate 32 1)).2 = true) ∧
    (∀ c0, (some fixtureBadConfig : Option RelayConfig) = some c0 →
      ((load_relay_config (RelayConfig.defaultWith (List.replicate 16 0) (List.replicate 32 0))
          (some fixtureBadConfig) (List.replicate 16 1) (List.replicate 32 1)).2 = true ↔
        (strTrim c0.server_url = "" ∨
         ¬(strStartsWith c0.server_url "ws://" = true ∨
           strStartsWith c0.server_url "wss://" = true) ∨
         strTrim c0.host_id = "" ∨ strTrim c0.master_secret = ""))) :=
  c8_load_self_healing (List.replicate 16 0) (List.replicate 32 0)
    (List.replicate 16 1) (List.replicate 32 1) (some fixtureBadConfig)
    (by decide) (by decide) (by decide) (by decide)

theorem conn_invariant : ∀ s : ConnSys, ConnReach s →
    s.active ≤ 1 ∧ (s.running = false → s.active = 0) := by
  intro s h
  induction h with
  | init => exact ⟨by decide, fun _ => by decide⟩
  | step hr hst ih =>
    cases hst with
    | invoke =>
      rename_i s1
      unfold connect_invoke
      by_cases hb : s1.running
      · rw [if_pos hb]
        exact ih
      · rw [if_neg hb]
        have h0 : s1.active = 0 := ih.2 (by simpa using hb)
        constructor
        · show s1.active + 1 ≤ 1
          omega
        · intro hf
          simp at hf
    | loop_exit hge =>
      rename_i s1
      obtain ⟨i1, _⟩ := ih
      constructor
      · show s1.active - 1 ≤ 1
        omega
      · intro _
        show s1.active - 1 = 0
        omega

/-- C10: invoking the connect entry point while another invocation is running
is a no-op (the guard observes the set flag and returns immediately, leaving
the state unchanged), and in every reachable state of the interleaved system at
most one connect/reconnect loop is active. -/
theorem c10_connect_single_flight :
    (∀ s : ConnSys, s.running = true → connect_invoke s = s) ∧
    (∀ s : ConnSys, ConnReach s → s.active ≤ 1) := by
  constructor
  · intro s h
    unfold connect_invoke
    rw [if_pos h]
  · intro s h
    exact (conn_invariant s h).1

theorem c10_connect_single_flight_witness :
    connect_invoke { running := true, active := 1 } = { running := true, active := 1 } ∧
    connInit.active ≤ 1 :=
  ⟨c10_connect_single_flight.1 { running := true, active := 1 } rfl,
   c10_connect_single_flight.2 connInit ConnReach.init⟩
